import Mathlib

/-
Verification of the CompanionOmada repository: a shallow embedding of the
session / cache / optimistic-update engine found in src/omada-client.ts and
src/main.ts, together with theorems settling the spec claims.

Modelling conventions for the dynamic JavaScript values handled by the code:
JSON-ish runtime values are the inductive type JVal, with an explicit undefined
constructor so that absent-property reads (which yield undefined in JS) are
representable.  Property access on a primitive or nullish value is modelled as
returning undefined; the code under verification only ever dereferences such
values behind optional chaining or after truthiness guards.  The method call
"xs?.find(...)" has two models: findPortE is the faithful one, whose error
result is the TypeError thrown when xs is a truthy non-array (primitives and
plain objects have no callable find), while findPort collapses that throwing
path into no port found and is therefore only used in hypothesis position
(findPort equal to some port), where the two agree.  Machine numbers are
modelled as Int (the code only ever compares small integers for strict
equality).
-/

/-- A JavaScript runtime value as handled by the Omada client code. -/
inductive JVal where
  | undefined : JVal
  | null : JVal
  | bool : Bool → JVal
  | num : Int → JVal
  | str : String → JVal
  | arr : List JVal → JVal
  | obj : List (String × JVal) → JVal

/-- JavaScript truthiness of a value (NaN is not modelled; numbers are Int). -/
def truthy : JVal → Bool
  | .undefined => false
  | .null => false
  | .bool b => b
  | .num n => n != 0
  | .str s => s != ""
  | .arr _ => true
  | .obj _ => true

/-- Field lookup in an object field list: first binding wins. -/
def fieldGet : List (String × JVal) → String → JVal
  | [], _ => .undefined
  | (k, v) :: rest, key => if k = key then v else fieldGet rest key

/-- Property read, total: absent fields and reads on non-objects give undefined,
matching JavaScript property access under the conventions above. -/
def jget : JVal → String → JVal
  | .obj fs, key => fieldGet fs key
  | _, _ => .undefined

/-- Replace the first binding of a key, or append a new one. -/
def fieldSet : List (String × JVal) → String → JVal → List (String × JVal)
  | [], key, v => [(key, v)]
  | (k, w) :: rest, key, v =>
      if k = key then (k, v) :: rest else (k, w) :: fieldSet rest key v

/-- Property assignment on an object; assignment on a non-object is modelled
as a no-op (the code never takes that path on the inputs we reason about). -/
def jsetField : JVal → String → JVal → JVal
  | .obj fs, key, v => .obj (fieldSet fs key v)
  | other, _, _ => other

/-- Key equality for the in-memory Map objects: JavaScript SameValueZero on
the primitive keys the code actually uses (mac strings); structured keys are
compared by reference in JS, approximated here as never equal. -/
def keySame : JVal → JVal → Bool
  | .undefined, .undefined => true
  | .null, .null => true
  | .bool a, .bool b => a == b
  | .num a, .num b => a == b
  | .str a, .str b => a == b
  | _, _ => false

/-- An in-memory cache, as a JS Map: insertion-ordered association list. -/
abbrev JCache : Type := List (JVal × JVal)

/-- Array.isArray, used to phrase which envelope branch applies. -/
def isArrayVal : JVal → Bool
  | .arr _ => true
  | _ => false

/-- Map.get: the stored value, or undefined when the key is absent. -/
def mapGet : JCache → JVal → JVal
  | [], _ => .undefined
  | (k, v) :: rest, key => if keySame k key then v else mapGet rest key

/-- Map.set: replace the first binding of the key in place, else append. -/
def mapSet : JCache → JVal → JVal → JCache
  | [], key, v => [(key, v)]
  | (k, w) :: rest, key, v =>
      if keySame k key then (key, v) :: rest else (k, w) :: mapSet rest key v

/-- Map.has, as used to phrase the directory/state-cache invariant. -/
def mapHasKey (c : JCache) (key : JVal) : Bool :=
  c.any (fun p => keySame p.1 key)


/-
Error taxonomy of the spec, used to label the failure paths of the code.
The source throws plain Error objects; the constructors below record which
spec-level class each throw site belongs to.
-/

/-- Spec-level error classes for the client operations. -/
inductive OmadaErr where
  | auth : OmadaErr
  | network : OmadaErr
  | notFound : OmadaErr
  | validation : OmadaErr
  | app : OmadaErr
deriving DecidableEq, Repr

/-- Outcome of one HTTP request as observed by a client method: a response
body, an unauthorized (401) response, or a transport failure. -/
inductive HttpResp where
  | ok : JVal → HttpResp
  | status401 : HttpResp
  | netErr : HttpResp

/-- Result of a client call together with how many re-logins and how many
attempts of the underlying request were performed. -/
structure RetryResult (α : Type) where
  result : Except OmadaErr α
  relogins : Nat
  attempts : Nat

/-- The catch-block structure shared by getDevices, updateSwitchPortPoe and
updateGatewayPortPoe in omada-client.ts: on a 401 response the method calls
login() and then recursively retries itself; any other error is rethrown.
The first script lists the successive outcomes of the request, the second the
successive outcomes of login() (false = login throws).  An exhausted script is
reported as a network failure, an artifact of the finite model. -/
def authRetry {α : Type} (handle : JVal → Except OmadaErr α) :
    List HttpResp → List Bool → RetryResult α
  | [], _ => ⟨.error .network, 0, 0⟩
  | .ok d :: _, _ => ⟨handle d, 0, 1⟩
  | .netErr :: _, _ => ⟨.error .network, 0, 1⟩
  | .status401 :: _, [] => ⟨.error .auth, 1, 1⟩
  | .status401 :: _, false :: _ => ⟨.error .auth, 1, 1⟩
  | .status401 :: rest, true :: ls =>
      let r := authRetry handle rest ls
      ⟨r.result, r.relogins + 1, r.attempts + 1⟩

/-- The errorCode guard of getDevices (omada-client.ts lines 215-217): the
call is rejected when the errorCode field is present and not the number 0. -/
def errorCodeRejects (data : JVal) : Bool :=
  match jget data "errorCode" with
  | .undefined => false
  | .num 0 => false
  | _ => true

/-- The envelope normalization of getDevices (omada-client.ts lines 224-251):
a bare array, an array under result, a truthy result.data, a truthy data, and
otherwise the initial empty devices array. -/
def getDevicesNormalize (data : JVal) : Except OmadaErr JVal :=
  if errorCodeRejects data then .error .app
  else
    match data with
    | .arr xs => .ok (.arr xs)
    | _ =>
      match jget data "result" with
      | .arr xs => .ok (.arr xs)
      | result =>
        if truthy (jget result "data") then .ok (jget result "data")
        else if truthy (jget data "data") then .ok (jget data "data")
        else .ok (.arr [])

/-- OmadaClient.getDevices (omada-client.ts lines 202-266): the normalization
wrapped in the re-login-and-retry catch block. -/
def getDevices (calls : List HttpResp) (logins : List Bool) : RetryResult JVal :=
  authRetry getDevicesNormalize calls logins

/-- Strict comparison p.port === portNumber used by the port lookups. -/
def portMatches (n : Int) (p : JVal) : Bool :=
  match jget p "port" with
  | .num m => m == n
  | _ => false

/-- The lookup switchData.ports?.find((p) => p.port === portNumber) shared by
getPortPoeStatus, updateSwitchPortPoe and isPoeEnabled, in the collapsed
model that treats any non-array ports value as yielding no port.  This
matches the source only when ports is an array or nullish, so theorems use
it solely under a hypothesis pinning its result to some port; findPortE
below is the faithful model of the lookup. -/
def findPort (switchData : JVal) (n : Int) : Option JVal :=
  match jget switchData "ports" with
  | .arr ps => ps.find? (portMatches n)
  | _ => none

/-- The faithful model of switchData.ports?.find((p) => p.port ===
portNumber): optional chaining short-circuits a nullish ports to no port, an
array is searched, and any truthy non-array ports value makes the source
throw a TypeError (primitives and plain objects have no callable find),
reported here as the error result. -/
def findPortE (switchData : JVal) (n : Int) : Except Unit (Option JVal) :=
  match jget switchData "ports" with
  | .undefined => .ok none
  | .null => .ok none
  | .arr ps => .ok (ps.find? (portMatches n))
  | _ => .error ()

/-- The read port.portStatus?.poe === true shared by getPortPoeStatus and
isPoeEnabled: true exactly when the poe field is the boolean true. -/
def poeFlag (port : JVal) : Bool :=
  match jget (jget port "portStatus") "poe" with
  | .bool true => true
  | _ => false

/-- OmadaClient.getPortPoeStatus (omada-client.ts lines 280-296), applied to
an already-fetched switch detail record: throws when the port is absent,
otherwise reports the strict boolean comparison. -/
def getPortPoeStatus (switchData : JVal) (n : Int) : Except OmadaErr Bool :=
  match findPort switchData n with
  | none => .error .notFound
  | some port => .ok (poeFlag port)

/-- Nullish coalescing a ?? d as used for the profile fields. -/
def jnn (v d : JVal) : JVal :=
  match v with
  | .undefined => d
  | .null => d
  | _ => v

/-- Logical-or defaulting a || d as used for dhcpL2RelaySettings/operation. -/
def jor (v d : JVal) : JVal :=
  if truthy v then v else d

/-- The portConfig payload of updateSwitchPortPoe (omada-client.ts lines
361-380): every profile-sourced field with its source defaulting operator,
the explicit override flag, and the PoE field as the integer 0 or 1. -/
def buildPortConfig (port profile : JVal) (enablePoe : Bool) : JVal :=
  .obj [
    ("name", jget port "name"),
    ("profileId", jget port "profileId"),
    ("profileOverrideEnable", .bool true),
    ("dhcpL2RelaySettings", jor (jget profile "dhcpL2RelaySettings") (.obj [("enable", .bool false)])),
    ("operation", jor (jget profile "operation") (.str "switching")),
    ("linkSpeed", jnn (jget profile "linkSpeed") (.num 0)),
    ("duplex", jnn (jget profile "duplex") (.num 0)),
    ("topoNotifyEnable", jnn (jget profile "topoNotifyEnable") (.bool false)),
    ("poe", .num (if enablePoe then 1 else 0)),
    ("dot1x", jnn (jget profile "dot1x") (.num 2)),
    ("bandWidthCtrlType", jnn (jget profile "bandWidthCtrlType") (.num 0)),
    ("loopbackDetectEnable", jnn (jget profile "loopbackDetectEnable") (.bool false)),
    ("spanningTreeEnable", jnn (jget profile "spanningTreeEnable") (.bool false)),
    ("loopbackDetectVlanBasedEnable", jnn (jget profile "loopbackDetectVlanBasedEnable") (.bool false)),
    ("portIsolationEnable", jnn (jget profile "portIsolationEnable") (.bool false)),
    ("flowControlEnable", jnn (jget profile "flowControlEnable") (.bool false)),
    ("eeeEnable", jnn (jget profile "eeeEnable") (.bool false)),
    ("lldpMedEnable", jnn (jget profile "lldpMedEnable") (.bool true))
  ]

/-- The payload-construction step of updateSwitchPortPoe (omada-client.ts
lines 350-380): locate the target port in the fetched switch detail record,
then merge it with the fetched profile; a missing port throws. -/
def updateSwitchPortPoePayload (switchData profile : JVal) (n : Int) (enablePoe : Bool) :
    Except OmadaErr JVal :=
  match findPort switchData n with
  | none => .error .notFound
  | some port => .ok (buildPortConfig port profile enablePoe)

/-- The response check of updateSwitchPortPoe (omada-client.ts lines
389-391): an HTTP-success response whose errorCode is not the number 0 is
rejected (the spec classifies this throw as ValidationError). -/
def updateSwitchPortPoeOutcome (respData : JVal) : Except OmadaErr Unit :=
  match jget respData "errorCode" with
  | .num 0 => .ok ()
  | _ => .error .validation

/-
The OmadaModuleInstance layer of src/main.ts: the two caches, the
confirmation-timer registry, the poll intervals and the teardown paths.
-/

/-- OmadaModuleInstance.isPoeEnabled (main.ts lines 237-250): a pure read of
the switch-details cache; a missing or falsy entry, a missing ports array or
a missing port all answer false. -/
def isPoeEnabled (switchDetailsCache : JCache) (mac : String) (n : Int) : Bool :=
  let details := mapGet switchDetailsCache (.str mac)
  if truthy details then
    match findPort details n with
    | some port => poeFlag port
    | none => false
  else false

/-- OmadaModuleInstance.isPoeEnabled (main.ts lines 237-250) with its
exception path made explicit via findPortE: a falsy cache entry answers
false before any port lookup, a port lookup on a truthy non-array ports
value propagates the TypeError, and otherwise the strict boolean read of the
found port (or false when absent) is returned. -/
def isPoeEnabledE (switchDetailsCache : JCache) (mac : String) (n : Int) :
    Except Unit Bool :=
  let details := mapGet switchDetailsCache (.str mac)
  if truthy details then
    match findPortE details n with
    | .error e => .error e
    | .ok (some port) => .ok (poeFlag port)
    | .ok none => .ok false
  else .ok false

/-- The in-place mutation port.portStatus.poe = enablePoe of togglePortPoe
(main.ts lines 268-272), applied to the first port of the list whose port
field strictly equals the target number, and only when that port has a
truthy portStatus. -/
def setPoeOnPort (port : JVal) (b : Bool) : JVal :=
  if truthy (jget port "portStatus") then
    jsetField port "portStatus" (jsetField (jget port "portStatus") "poe" (.bool b))
  else port

/-- Update the first matching port of a ports list, leaving the rest as-is. -/
def setPoeInPorts : List JVal → Int → Bool → List JVal
  | [], _, _ => []
  | p :: rest, n, b =>
      if portMatches n p then setPoeOnPort p b :: rest
      else p :: setPoeInPorts rest n b

/-- The optimistic cache write of togglePortPoe (main.ts lines 265-273): if
the details cache has a truthy entry for the device whose ports field is an
array, mutate the matching port in place; otherwise the cache is untouched. -/
def applyOptimisticWrite (cache : JCache) (mac : String) (n : Int) (b : Bool) : JCache :=
  let details := mapGet cache (.str mac)
  if truthy details then
    match jget details "ports" with
    | .arr ps => mapSet cache (.str mac) (jsetField details "ports" (.arr (setPoeInPorts ps n b)))
    | _ => cache
  else cache

/-- The confirmation-timer registry of OmadaModuleInstance: the pending map
from key to timer, the set of timers that have been cleared, and a counter
supplying fresh timer identities. -/
structure TimerState where
  pending : List (String × Nat)
  cancelled : List Nat
  nextId : Nat
deriving DecidableEq, Repr

/-- Lookup in a string-keyed association list (Map.get). -/
def tGet : List (String × Nat) → String → Option Nat
  | [], _ => none
  | (k, v) :: rest, key => if k = key then some v else tGet rest key

/-- Insert-or-replace in a string-keyed association list (Map.set). -/
def tSet : List (String × Nat) → String → Nat → List (String × Nat)
  | [], key, v => [(key, v)]
  | (k, w) :: rest, key, v =>
      if k = key then (key, v) :: rest else (k, w) :: tSet rest key v

/-- The timeout key template of togglePortPoe (main.ts line 279). -/
def timerKey (mac : String) (n : Int) : String :=
  mac ++ ":" ++ toString n

/-- The timer arming of togglePortPoe (main.ts lines 278-300): clear any
existing confirmation timeout for the key, then register a fresh one. -/
def scheduleConfirmation (ts : TimerState) (key : String) : TimerState :=
  let newCancelled :=
    match tGet ts.pending key with
    | some id => id :: ts.cancelled
    | none => ts.cancelled
  ⟨tSet ts.pending key ts.nextId, newCancelled, ts.nextId + 1⟩

/-- Result of one togglePortPoe invocation: the switch-details cache, the
timer registry, and the outcome surfaced to the caller. -/
structure ToggleResult where
  cache : JCache
  timers : TimerState
  result : Except OmadaErr Unit

/-- OmadaModuleInstance.togglePortPoe (main.ts lines 256-307), with the
outcome of the client mutation call and the authoritative details cache that
refreshDevices would load supplied as parameters.  On success: optimistic
write, then arm the confirmation timer.  On any failure: the caches are
refreshed from the authoritative source at once, no optimistic write and no
timer, and the error is rethrown. -/
def togglePortPoe (cache : JCache) (timers : TimerState) (authoritative : JCache)
    (mac : String) (n : Int) (desired : Bool) (mutation : Except OmadaErr Unit) :
    ToggleResult :=
  match mutation with
  | .error e => ⟨authoritative, timers, .error e⟩
  | .ok _ => ⟨applyOptimisticWrite cache mac n desired,
              scheduleConfirmation timers (timerKey mac n), .ok ()⟩

/-- The timer fields of OmadaModuleInstance (main.ts lines 13-18): the two
poll intervals, the reconnect timeout and the pending confirmation map. -/
structure InstanceTimers where
  deviceListPollInterval : Option Nat
  switchDetailsPollInterval : Option Nat
  reconnectTimeout : Option Nat
  confirmationTimeouts : List (String × Nat)
deriving DecidableEq, Repr

/-- OmadaModuleInstance.stopPolling (main.ts lines 125-134). -/
def stopPolling (s : InstanceTimers) : InstanceTimers :=
  ⟨none, none, s.reconnectTimeout, s.confirmationTimeouts⟩

/-- The timer clean-up performed by destroy (main.ts lines 312-333): stop
polling, clear the reconnect timeout, clear every confirmation timeout. -/
def destroyTeardown (s : InstanceTimers) : InstanceTimers :=
  let s1 := stopPolling s
  ⟨s1.deviceListPollInterval, s1.switchDetailsPollInterval, none, []⟩

/-- The timer clean-up performed by configUpdated (main.ts lines 338-354)
before logging out and reconnecting: stop polling and clear the reconnect
timeout; the confirmation map is not touched. -/
def configUpdatedTeardown (s : InstanceTimers) : InstanceTimers :=
  let s1 := stopPolling s
  ⟨s1.deviceListPollInterval, s1.switchDetailsPollInterval, none, s1.confirmationTimeouts⟩

/-- The two caches of OmadaModuleInstance (main.ts lines 15-16). -/
structure Caches where
  deviceCache : JCache
  switchDetailsCache : JCache

/-- Device classification d.type === 'switch' (main.ts line 183). -/
def isSwitchDevice (d : JVal) : Bool :=
  match jget d "type" with
  | .str s => s == "switch"
  | _ => false

/-- OmadaModuleInstance.refreshDeviceList (main.ts lines 147-171): clear the
device cache and re-insert every fetched device under its mac; the
switch-details cache is not touched. -/
def refreshDeviceList (fetched : List JVal) (s : Caches) : Caches :=
  ⟨fetched.foldl (fun c d => mapSet c (jget d "mac") d) [], s.switchDetailsCache⟩

/-- The values of a cache in insertion order (Map.values). -/
def cacheValues (c : JCache) : List JVal :=
  c.map (fun p => p.2)

/-- OmadaModuleInstance.refreshSwitchDetails (main.ts lines 176-204): for
every cached device classified as a switch, fetch its details and store them
under its mac; a failed fetch for one switch is logged and skipped.  The
fetch oracle maps a mac key to the details, or none for a failed request. -/
def refreshSwitchDetails (fetch : JVal → Option JVal) (s : Caches) : Caches :=
  ⟨s.deviceCache,
   ((cacheValues s.deviceCache).filter isSwitchDevice).foldl
     (fun c sw =>
       match fetch (jget sw "mac") with
       | some details => mapSet c (jget sw "mac") details
       | none => c)
     s.switchDetailsCache⟩

/-- The invariant claimed by the spec: the switch-details cache never holds
an entry for a device absent from the device directory. -/
def detailsKeysInDirectory (s : Caches) : Prop :=
  ∀ k : JVal, mapHasKey s.switchDetailsCache k = true → mapHasKey s.deviceCache k = true

/-- Number of pending-map entries carrying a given key; the spec invariant
says this never exceeds one. -/
def tKeyCount (l : List (String × Nat)) (k : String) : Nat :=
  (l.filter (fun p => p.1 == k)).length

/-- The mac keys of the switch-classified devices currently in the device
directory: exactly the keys the switch-details refresh may write. -/
def switchMacs (s : Caches) : List JVal :=
  ((cacheValues s.deviceCache).filter isSwitchDevice).map (fun sw => jget sw "mac")

/-
Concrete fixtures used by the counterexample and witness theorems.
-/

/-- A cached port record carrying a portStatus object, PoE currently off. -/
def portWithStatus : JVal :=
  .obj [("port", .num 1), ("portStatus", .obj [("poe", .bool false)])]

/-- A switch detail record holding exactly the given port. -/
def detailsOf (p : JVal) : JVal := .obj [("ports", .arr [p])]

/-- A one-device switch-details cache for the device AA-BB. -/
def cacheOf (p : JVal) : JCache := [(.str "AA-BB", detailsOf p)]

/-- A port whose poe flag is encoded as the integer 1, not a boolean. -/
def portPoeNum : JVal :=
  .obj [("port", .num 1), ("portStatus", .obj [("poe", .num 1)])]

/-- A port whose poe flag is encoded as the string true. -/
def portPoeStr : JVal :=
  .obj [("port", .num 1), ("portStatus", .obj [("poe", .str "true")])]

/-- A port carrying no portStatus object at all. -/
def portNoStatus : JVal := .obj [("port", .num 1)]

/-- The port-detail record of the spec scenario: port 8 bound to profile p1,
PoE currently off. -/
def scenarioPort : JVal :=
  .obj [("port", .num 8), ("name", .str "Port 8"), ("profileId", .str "p1"),
        ("portStatus", .obj [("poe", .bool false)])]

/-- The switch detail record of the spec scenario. -/
def scenarioSwitchData : JVal := .obj [("ports", .arr [scenarioPort])]

/-- The profile p1 of the spec scenario: linkSpeed 0 and duplex 0 present. -/
def scenarioProfileP1 : JVal := .obj [("linkSpeed", .num 0), ("duplex", .num 0)]

/-- A directory/details cache pair holding the single switch AA-BB in both. -/
def staleCaches : Caches :=
  ⟨[(.str "AA-BB", .obj [("mac", .str "AA-BB"), ("type", .str "switch")])],
   [(.str "AA-BB", .obj [("ports", .arr [])])]⟩

/-- A details cache whose entry carries a truthy non-array ports value, as a
controller response with errorCode 0 and a malformed result would produce:
the port lookup on it makes the source throw. -/
def cachePortsNum : JCache := [(.str "AA-BB", .obj [("ports", .num 5)])]

/-
Helper lemmas about the embedding, shared by the claim theorems.
-/

/-- Two keys the Map treats as equal are the same value. -/
theorem keySame_eq {a b : JVal} (h : keySame a b = true) : a = b := by
  cases a <;> cases b <;> simp [keySame] at h <;> simp [h]

/-- A string key always matches itself. -/
theorem keySame_str_self (s : String) : keySame (.str s) (.str s) = true := by
  simp [keySame]

/-- Reading a string key straight after setting it yields the new value. -/
theorem mapGet_mapSet_str (c : JCache) (m : String) (v : JVal) :
    mapGet (mapSet c (.str m) v) (.str m) = v := by
  induction c with
  | nil => simp [mapSet, mapGet, keySame_str_self]
  | cons hd tl ih =>
      obtain ⟨k, w⟩ := hd
      by_cases h : keySame k (.str m) = true
      · simp [mapSet, h, mapGet, keySame_str_self]
      · simp [mapSet, h, mapGet, ih]

/-- Membership in a map after Map.set: the new binding or an old one. -/
theorem mapHasKey_mapSet (c : JCache) (k v q : JVal) :
    mapHasKey (mapSet c k v) q = (keySame k q || mapHasKey c q) := by
  induction c with
  | nil => simp [mapSet, mapHasKey, List.any]
  | cons hd tl ih =>
      obtain ⟨k0, w⟩ := hd
      by_cases h : keySame k0 k = true
      · have hk := keySame_eq h
        subst hk
        simp [mapSet, h, mapHasKey, List.any]
      · simp only [mapSet, h, if_neg, Bool.false_eq_true, not_false_iff, ite_false]
        simp [mapHasKey, List.any] at ih ⊢
        rw [ih]
        cases keySame k0 q <;> cases keySame k q <;> simp

/-- Reading a key straight after fieldSet on that key yields the new value. -/
theorem fieldGet_fieldSet_self (fs : List (String × JVal)) (k : String) (v : JVal) :
    fieldGet (fieldSet fs k v) k = v := by
  induction fs with
  | nil => simp [fieldSet, fieldGet]
  | cons hd tl ih =>
      obtain ⟨k0, w⟩ := hd
      by_cases h : k0 = k
      · simp [fieldSet, h, fieldGet]
      · simp [fieldSet, h, fieldGet, ih]

/-- fieldSet leaves every other key unchanged. -/
theorem fieldGet_fieldSet_ne (fs : List (String × JVal)) {k q : String} (v : JVal)
    (h : k ≠ q) : fieldGet (fieldSet fs k v) q = fieldGet fs q := by
  induction fs with
  | nil => simp [fieldSet, fieldGet, h]
  | cons hd tl ih =>
      obtain ⟨k0, w⟩ := hd
      by_cases h0 : k0 = k
      · subst h0
        simp [fieldSet, fieldGet, h]
      · simp [fieldSet, h0, fieldGet, ih]

/-- Reading the field just assigned on an object. -/
theorem jget_jsetField_obj_self (fs : List (String × JVal)) (k : String) (v : JVal) :
    jget (jsetField (.obj fs) k v) k = v := by
  simp [jsetField, jget, fieldGet_fieldSet_self]

/-- Assignment on an object leaves other fields untouched. -/
theorem jget_jsetField_obj_ne (fs : List (String × JVal)) {k q : String} (v : JVal)
    (h : k ≠ q) : jget (jsetField (.obj fs) k v) q = jget (.obj fs) q := by
  simp [jsetField, jget, fieldGet_fieldSet_ne _ _ h]

/-- A value some port field strictly matches on is an object. -/
theorem portMatches_obj {n : Int} {p : JVal} (h : portMatches n p = true) :
    ∃ gs, p = .obj gs := by
  cases p with
  | obj gs => exact ⟨gs, rfl⟩
  | undefined => simp [portMatches, jget] at h
  | null => simp [portMatches, jget] at h
  | bool b => simp [portMatches, jget] at h
  | num m => simp [portMatches, jget] at h
  | str s => simp [portMatches, jget] at h
  | arr xs => simp [portMatches, jget] at h

/-- The optimistic in-place write keeps the port number intact. -/
theorem portMatches_setPoeOnPort {n : Int} {p : JVal} (b : Bool)
    (h : portMatches n p = true) : portMatches n (setPoeOnPort p b) = true := by
  obtain ⟨gs, rfl⟩ := portMatches_obj h
  unfold setPoeOnPort
  by_cases ht : truthy (jget (.obj gs) "portStatus") = true
  · have hne : "portStatus" ≠ "port" := by decide
    simpa [ht, portMatches, jget_jsetField_obj_ne gs _ hne] using h
  · simp [ht, h]

/-- The optimistic write rewrites exactly the first matching port. -/
theorem find_setPoeInPorts {ps : List JVal} {n : Int} {p : JVal} (b : Bool)
    (h : ps.find? (portMatches n) = some p) :
    (setPoeInPorts ps n b).find? (portMatches n) = some (setPoeOnPort p b) := by
  induction ps with
  | nil => simp [List.find?] at h
  | cons q qs ih =>
      by_cases hq : portMatches n q = true
      · rw [List.find?_cons_of_pos _ hq] at h
        injection h with h
        subst h
        simp only [setPoeInPorts, hq, if_pos]
        exact List.find?_cons_of_pos _ (portMatches_setPoeOnPort b hq)
      · rw [List.find?_cons_of_neg _ (by simpa using hq)] at h
        have hs : setPoeInPorts (q :: qs) n b = q :: setPoeInPorts qs n b := by
          simp [setPoeInPorts, hq]
        rw [hs, List.find?_cons_of_neg _ (by simpa using hq)]
        exact ih h

/-- The strict boolean read is true exactly on the boolean true encoding. -/
theorem poeFlag_eq_true_iff (port : JVal) :
    poeFlag port = true ↔ jget (jget port "portStatus") "poe" = .bool true := by
  unfold poeFlag
  generalize jget (jget port "portStatus") "poe" = v
  cases v with
  | bool b => cases b <;> simp
  | undefined => simp
  | null => simp
  | num m => simp
  | str s => simp
  | arr xs => simp
  | obj fs => simp

/-- After the in-place write the strict read reports the written value. -/
theorem poeFlag_setPoeOnPort {port : JVal} {pss : List (String × JVal)} (b : Bool)
    (h : jget port "portStatus" = .obj pss) : poeFlag (setPoeOnPort port b) = b := by
  obtain ⟨gs, rfl⟩ : ∃ gs, port = .obj gs := by
    cases port with
    | obj gs => exact ⟨gs, rfl⟩
    | undefined => simp [jget] at h
    | null => simp [jget] at h
    | bool x => simp [jget] at h
    | num m => simp [jget] at h
    | str s => simp [jget] at h
    | arr xs => simp [jget] at h
  unfold setPoeOnPort
  have ht : truthy (jget (.obj gs) "portStatus") = true := by
    rw [h]; rfl
  rw [if_pos ht, h]
  unfold poeFlag
  rw [jget_jsetField_obj_self, jget_jsetField_obj_self]
  cases b <;> rfl

/-- A value with a defined property is an object. -/
theorem jget_ne_undef_obj {v : JVal} {k : String} (h : jget v k ≠ .undefined) :
    ∃ fs, v = .obj fs := by
  cases v with
  | obj fs => exact ⟨fs, rfl⟩
  | undefined => simp [jget] at h
  | null => simp [jget] at h
  | bool b => simp [jget] at h
  | num m => simp [jget] at h
  | str s => simp [jget] at h
  | arr xs => simp [jget] at h

/-- A record some port is found in is an object. -/
theorem findPort_obj {v : JVal} {n : Int} {p : JVal} (h : findPort v n = some p) :
    ∃ fs, v = .obj fs := by
  refine jget_ne_undef_obj (k := "ports") ?_
  intro hu
  rw [findPort, hu] at h
  simp at h

/-- Reading a timer key straight after registering it yields the new timer. -/
theorem tGet_tSet_self (l : List (String × Nat)) (k : String) (v : Nat) :
    tGet (tSet l k v) k = some v := by
  induction l with
  | nil => simp [tSet, tGet]
  | cons hd tl ih =>
      obtain ⟨k0, w⟩ := hd
      by_cases h : k0 = k
      · simp [tSet, h, tGet]
      · simp [tSet, h, tGet, ih]

/-- Registering a timer leaves every other key unchanged. -/
theorem tGet_tSet_ne (l : List (String × Nat)) {k q : String} (v : Nat)
    (h : k ≠ q) : tGet (tSet l k v) q = tGet l q := by
  induction l with
  | nil => simp [tSet, tGet, h]
  | cons hd tl ih =>
      obtain ⟨k0, w⟩ := hd
      by_cases h0 : k0 = k
      · subst h0
        simp [tSet, tGet, h]
      · simp [tSet, h0, tGet, ih]

/-- A successful timer lookup is a membership fact. -/
theorem tGet_mem {l : List (String × Nat)} {k : String} {v : Nat}
    (h : tGet l k = some v) : (k, v) ∈ l := by
  induction l with
  | nil => simp [tGet] at h
  | cons hd tl ih =>
      obtain ⟨k0, w⟩ := hd
      by_cases h0 : k0 = k
      · subst h0
        simp [tGet] at h
        simp [h]
      · simp [tGet, h0] at h
        exact List.mem_cons_of_mem _ (ih h)

/-- Key multiplicity after Map.set: the key now occurs at least once, and a
pre-existing first occurrence is replaced rather than duplicated. -/
theorem tKeyCount_tSet_self (l : List (String × Nat)) (k : String) (v : Nat) :
    tKeyCount (tSet l k v) k = max (tKeyCount l k) 1 := by
  induction l with
  | nil => simp [tSet, tKeyCount]
  | cons hd tl ih =>
      obtain ⟨k0, w⟩ := hd
      by_cases h : k0 = k
      · subst h
        simp [tSet, tKeyCount, List.filter]
      · have hb : (k0 == k) = false := by simp [h]
        simp [tSet, h, tKeyCount, List.filter, hb] at ih ⊢
        omega

/-- Map.set does not change the multiplicity of other keys. -/
theorem tKeyCount_tSet_ne (l : List (String × Nat)) {k q : String} (v : Nat)
    (h : k ≠ q) : tKeyCount (tSet l k v) q = tKeyCount l q := by
  induction l with
  | nil =>
      have hb : (k == q) = false := by simp [h]
      simp [tSet, tKeyCount, List.filter, hb]
  | cons hd tl ih =>
      obtain ⟨k0, w⟩ := hd
      by_cases h0 : k0 = k
      · subst h0
        have hb : (k0 == q) = false := by simp [h]
        simp [tSet, tKeyCount, List.filter, hb]
      · simp [tSet, h0, tKeyCount, List.filter] at ih ⊢
        cases hb : (k0 == q) <;> simp [hb, ih]

/-- Unbounded retry: n consecutive unauthorized responses with succeeding
re-logins produce n re-logins and n+1 attempts before the final response is
handled. -/
theorem authRetry_replicate {α : Type} (handle : JVal → Except OmadaErr α)
    (n : Nat) (d : JVal) :
    authRetry handle (List.replicate n .status401 ++ [.ok d]) (List.replicate n true) =
      ⟨handle d, n, n + 1⟩ := by
  induction n with
  | zero => simp [authRetry]
  | succ m ih => simp [List.replicate_succ, authRetry, ih]

/-- Keys present after the switch-details refresh fold either were present
before the fold or are the mac key of one of the folded switches. -/
theorem foldDetails_keys (fetch : JVal → Option JVal) :
    ∀ (l : List JVal) (acc : JCache) (k : JVal),
      mapHasKey
        (l.foldl (fun c sw =>
          match fetch (jget sw "mac") with
          | some details => mapSet c (jget sw "mac") details
          | none => c) acc) k = true →
      mapHasKey acc k = true ∨
        (l.map (fun sw => jget sw "mac")).any (fun m => keySame m k) = true := by
  intro l
  induction l with
  | nil =>
      intro acc k h
      exact Or.inl h
  | cons sw l2 ih =>
      intro acc k h
      rw [List.foldl_cons] at h
      rcases ih _ k h with hstep | hrest
      · cases hf : fetch (jget sw "mac") with
        | some d =>
            rw [hf] at hstep
            rw [mapHasKey_mapSet] at hstep
            cases hks : keySame (jget sw "mac") k with
            | true =>
                right
                simp [hks]
            | false =>
                left
                rw [hks] at hstep
                simpa using hstep
        | none =>
            rw [hf] at hstep
            exact Or.inl hstep
      · right
        simp [hrest]

/-
Claim theorems.
-/

/-- C1, counterexample: a second consecutive unauthorized response does NOT
propagate as a failure after one re-login and one retry.  With the script
401, 401, success and two succeeding logins, getDevices performs two
re-logins and three attempts and returns the devices, where the claim says
the second 401 must surface as a failure with no further re-login or retry. -/
theorem getDevices_second_unauthorized_relogins_again :
    getDevices [.status401, .status401, .ok (.arr [])] [true, true] =
      ⟨.ok (.arr []), 2, 3⟩ := rfl

/-- C1, amended: every unauthorized response triggers a re-login and a retry
of the original call, with no bound on the number of consecutive cycles; the
failure propagates only when the re-login itself fails (or the retry fails
with a non-401 error).  This holds for any call wrapped in the shared
retry structure, and for getDevices in particular. -/
theorem authRetry_unbounded_relogin :
    (∀ (α : Type) (handle : JVal → Except OmadaErr α) (n : Nat) (d : JVal),
        authRetry handle (List.replicate n .status401 ++ [.ok d]) (List.replicate n true) =
          ⟨handle d, n, n + 1⟩) ∧
    (∀ (calls : List HttpResp) (logins : List Bool),
        getDevices (.status401 :: calls) (false :: logins) = ⟨.error .auth, 1, 1⟩) ∧
    (∀ (n : Nat) (ds : List JVal),
        getDevices (List.replicate n .status401 ++ [.ok (.arr ds)]) (List.replicate n true) =
          ⟨.ok (.arr ds), n, n + 1⟩) := by
  refine ⟨fun α handle n d => authRetry_replicate handle n d,
          fun calls logins => rfl,
          fun n ds => ?_⟩
  rw [getDevices, authRetry_replicate]
  simp [getDevicesNormalize, errorCodeRejects, jget]

/-- C2: an HTTP-success mutation response with a non-zero application-level
errorCode surfaces as ValidationError; for that failure, and for every other
failing mutation outcome, togglePortPoe leaves the optimistic write
unapplied, replaces the cache with the authoritative refresh at once, arms
no confirmation timer, and propagates the error. -/
theorem togglePortPoe_failing_mutation (cache : JCache) (timers : TimerState)
    (authoritative : JCache) (mac : String) (n : Int) (desired : Bool)
    (respData : JVal) (e : Int)
    (h : jget respData "errorCode" = .num e) (hne : e ≠ 0) :
    updateSwitchPortPoeOutcome respData = .error .validation ∧
    togglePortPoe cache timers authoritative mac n desired (updateSwitchPortPoeOutcome respData) =
      ⟨authoritative, timers, .error .validation⟩ ∧
    (∀ err : OmadaErr,
        togglePortPoe cache timers authoritative mac n desired (.error err) =
          ⟨authoritative, timers, .error err⟩) := by
  have hout : updateSwitchPortPoeOutcome respData = .error .validation := by
    unfold updateSwitchPortPoeOutcome
    rw [h]
    split
    · next heq =>
        injection heq with he
        exact absurd he hne
    · rfl
  exact ⟨hout, by rw [hout]; rfl, fun err => rfl⟩

/-- C2 witness at a concrete failing response and concrete caches. -/
theorem togglePortPoe_failing_mutation_witness :
    jget (.obj [("errorCode", .num 1)]) "errorCode" = .num 1 ∧ (1 : Int) ≠ 0 ∧
    (updateSwitchPortPoeOutcome (.obj [("errorCode", .num 1)]) = .error .validation ∧
     togglePortPoe (cacheOf portWithStatus) ⟨[], [], 0⟩ [] "AA-BB" 1 true
         (updateSwitchPortPoeOutcome (.obj [("errorCode", .num 1)])) =
       ⟨[], ⟨[], [], 0⟩, .error .validation⟩ ∧
     (∀ err : OmadaErr,
         togglePortPoe (cacheOf portWithStatus) ⟨[], [], 0⟩ [] "AA-BB" 1 true (.error err) =
           ⟨[], ⟨[], [], 0⟩, .error err⟩)) :=
  ⟨rfl, by decide,
   togglePortPoe_failing_mutation (cacheOf portWithStatus) ⟨[], [], 0⟩ [] "AA-BB" 1 true
     (.obj [("errorCode", .num 1)]) 1 rfl (by decide)⟩

/-- C3, counterexample: the optimistic write is NOT unconditional.  With a
cached entry whose port 1 carries no portStatus object, a successful
mutation leaves the cache untouched, so isPoeEnabled reports false right
after togglePortPoe succeeded with desiredState true. -/
theorem togglePortPoe_optimistic_write_skipped :
    (togglePortPoe (cacheOf portNoStatus) ⟨[], [], 0⟩ [] "AA-BB" 1 true (.ok ())).result =
      .ok () ∧
    (togglePortPoe (cacheOf portNoStatus) ⟨[], [], 0⟩ [] "AA-BB" 1 true (.ok ())).cache =
      cacheOf portNoStatus ∧
    isPoeEnabled
      (togglePortPoe (cacheOf portNoStatus) ⟨[], [], 0⟩ [] "AA-BB" 1 true (.ok ())).cache
      "AA-BB" 1 = false := ⟨rfl, rfl, rfl⟩

/-- C3, amended: after a successful mutation call the optimistic write
updates the cached port entry provided the cache holds the device, the entry
has a ports array containing the port, and that port carries a truthy
portStatus object; in that case isPoeEnabled returns desiredState
immediately, the write and the read both being pure cache operations with no
network call.  When the device, port or portStatus is missing the write is
skipped. -/
theorem togglePortPoe_optimistic_write_visible (cache : JCache) (timers : TimerState)
    (authoritative : JCache) (mac : String) (n : Int) (desired : Bool)
    (ps : List JVal) (port : JVal) (pss : List (String × JVal))
    (hports : jget (mapGet cache (.str mac)) "ports" = .arr ps)
    (hfind : ps.find? (portMatches n) = some port)
    (hstatus : jget port "portStatus" = .obj pss) :
    (togglePortPoe cache timers authoritative mac n desired (.ok ())).result = .ok () ∧
    isPoeEnabled (togglePortPoe cache timers authoritative mac n desired (.ok ())).cache
      mac n = desired := by
  obtain ⟨fs, hdet⟩ : ∃ fs, mapGet cache (.str mac) = .obj fs := by
    refine jget_ne_undef_obj (k := "ports") ?_
    rw [hports]
    simp
  have hports2 : jget (.obj fs) "ports" = .arr ps := by rw [← hdet, hports]
  have happ : applyOptimisticWrite cache mac n desired =
      mapSet cache (.str mac)
        (jsetField (.obj fs) "ports" (.arr (setPoeInPorts ps n desired))) := by
    unfold applyOptimisticWrite
    rw [hdet]
    simp only [hports2]
    simp [truthy]
  refine ⟨rfl, ?_⟩
  show isPoeEnabled (applyOptimisticWrite cache mac n desired) mac n = desired
  rw [happ]
  unfold isPoeEnabled
  rw [mapGet_mapSet_str]
  have ht : truthy (jsetField (.obj fs) "ports" (.arr (setPoeInPorts ps n desired))) = true := by
    simp [jsetField, truthy]
  rw [if_pos ht]
  have hfp : findPort (jsetField (.obj fs) "ports" (.arr (setPoeInPorts ps n desired))) n =
      some (setPoeOnPort port desired) := by
    unfold findPort
    rw [jget_jsetField_obj_self]
    exact find_setPoeInPorts desired hfind
  rw [hfp]
  exact poeFlag_setPoeOnPort desired hstatus

/-- C3 witness: a concrete cache whose port 1 has a portStatus object; after
a successful toggle to true the read reports true. -/
theorem togglePortPoe_optimistic_write_visible_witness :
    jget (mapGet (cacheOf portWithStatus) (.str "AA-BB")) "ports" = .arr [portWithStatus] ∧
    List.find? (portMatches 1) [portWithStatus] = some portWithStatus ∧
    jget portWithStatus "portStatus" = .obj [("poe", .bool false)] ∧
    ((togglePortPoe (cacheOf portWithStatus) ⟨[], [], 0⟩ [] "AA-BB" 1 true (.ok ())).result =
        .ok () ∧
     isPoeEnabled
       (togglePortPoe (cacheOf portWithStatus) ⟨[], [], 0⟩ [] "AA-BB" 1 true (.ok ())).cache
       "AA-BB" 1 = true) :=
  ⟨rfl, rfl, rfl,
   togglePortPoe_optimistic_write_visible (cacheOf portWithStatus) ⟨[], [], 0⟩ [] "AA-BB" 1
     true [portWithStatus] portWithStatus [("poe", .bool false)] rfl rfl rfl⟩

/-- C4, counterexample: a response matching none of the four envelope shapes
does NOT always normalize to the empty sequence.  A response with a non-zero
errorCode fails the call, and a truthy non-array result.data value is
returned as-is instead of the empty sequence. -/
theorem getDevices_unmatched_envelope_not_empty :
    getDevices [.ok (.obj [("errorCode", .num (-30109))])] [] = ⟨.error .app, 0, 1⟩ ∧
    getDevicesNormalize (.obj [("result", .obj [("data", .str "oops")])]) =
      .ok (.str "oops") :=
  ⟨rfl, rfl⟩

/-- C4, amended: the four documented envelope shapes normalize to the same
flat device sequence; a response whose errorCode field is present and
non-zero fails the call, a truthy non-array value under result.data or data
is returned as-is, and every remaining unmatched response normalizes to the
empty sequence. -/
theorem getDevices_envelope_normalization :
    (∀ ds : List JVal,
        getDevices [.ok (.arr ds)] [] = ⟨.ok (.arr ds), 0, 1⟩ ∧
        getDevices [.ok (.obj [("result", .arr ds)])] [] = ⟨.ok (.arr ds), 0, 1⟩ ∧
        getDevices [.ok (.obj [("result", .obj [("data", .arr ds)])])] [] =
          ⟨.ok (.arr ds), 0, 1⟩ ∧
        getDevices [.ok (.obj [("data", .arr ds)])] [] = ⟨.ok (.arr ds), 0, 1⟩) ∧
    (∀ data : JVal,
        jget data "errorCode" = .undefined →
        isArrayVal data = false →
        isArrayVal (jget data "result") = false →
        truthy (jget (jget data "result") "data") = false →
        truthy (jget data "data") = false →
        getDevicesNormalize data = .ok (.arr [])) := by
  constructor
  · intro ds
    exact ⟨rfl, rfl, rfl, rfl⟩
  · intro data h1 h2 h3 h4 h5
    cases data with
    | undefined => rfl
    | null => rfl
    | bool b => rfl
    | num m => rfl
    | str s => rfl
    | arr xs => simp [isArrayVal] at h2
    | obj fs =>
        simp only [jget] at h1 h3 h4 h5
        have hrej : errorCodeRejects (.obj fs) = false := by
          unfold errorCodeRejects
          simp only [jget]
          rw [h1]
        simp only [getDevicesNormalize, hrej, Bool.false_eq_true, if_false, jget]
        cases hr : fieldGet fs "result" with
        | arr xs =>
            rw [hr] at h3
            simp [isArrayVal] at h3
        | obj gs =>
            rw [hr] at h4
            simp [jget, h4, h5]
        | undefined =>
            simp [jget, truthy, h5]
            intro hc
            have hcc : truthy (fieldGet fs "data") = true := hc
            rw [h5] at hcc
            cases hcc
        | null =>
            simp [jget, truthy, h5]
            intro hc
            have hcc : truthy (fieldGet fs "data") = true := hc
            rw [h5] at hcc
            cases hcc
        | bool b =>
            simp [jget, truthy, h5]
            intro hc
            have hcc : truthy (fieldGet fs "data") = true := hc
            rw [h5] at hcc
            cases hcc
        | num m =>
            simp [jget, truthy, h5]
            intro hc
            have hcc : truthy (fieldGet fs "data") = true := hc
            rw [h5] at hcc
            cases hcc
        | str s =>
            simp [jget, truthy, h5]
            intro hc
            have hcc : truthy (fieldGet fs "data") = true := hc
            rw [h5] at hcc
            cases hcc

/-- C4 witness at a concrete unmatched envelope with no relevant fields. -/
theorem getDevices_envelope_normalization_witness :
    jget (.obj [("foo", .num 7)]) "errorCode" = .undefined ∧
    isArrayVal (.obj [("foo", .num 7)]) = false ∧
    isArrayVal (jget (.obj [("foo", .num 7)]) "result") = false ∧
    truthy (jget (jget (.obj [("foo", .num 7)]) "result") "data") = false ∧
    truthy (jget (.obj [("foo", .num 7)]) "data") = false ∧
    getDevicesNormalize (.obj [("foo", .num 7)]) = .ok (.arr []) :=
  ⟨rfl, rfl, rfl, rfl, rfl,
   getDevices_envelope_normalization.2 (.obj [("foo", .num 7)]) rfl rfl rfl rfl rfl⟩

/-- C5, counterexample: a profile-sourced field present in the profile is
not always carried into the payload.  A profile whose operation field is
present with the empty-string value is replaced by the default switching,
because the code merges that field with logical-or rather than nullish
coalescing. -/
theorem updateSwitchPortPoe_present_profile_value_replaced :
    (updateSwitchPortPoePayload
        (.obj [("ports", .arr [.obj [("port", .num 8), ("profileId", .str "p1")]])])
        (.obj [("operation", .str "")]) 8 true).map (fun cfg => jget cfg "operation") =
      .ok (.str "switching") ∧
    jget (.obj [("operation", .str "")]) "operation" = .str "" :=
  ⟨rfl, rfl⟩

/-- C5, amended: the switch-path payload always carries profileOverrideEnable
true and the PoE field as the integer 1 or 0 (never a boolean); the
nullish-coalesced fields (linkSpeed, duplex, dot1x, and the other flags)
take the profile value whenever it is present and non-null, so a profile
with linkSpeed 0 and duplex 0 yields a payload with linkSpeed 0 and duplex 0;
operation and dhcpL2RelaySettings take the profile value only when truthy.
The spec scenario evaluates to the full merged payload. -/
theorem buildPortConfig_complete_payload :
    (∀ (port profile : JVal) (b : Bool),
        jget (buildPortConfig port profile b) "profileOverrideEnable" = .bool true ∧
        jget (buildPortConfig port profile b) "poe" = .num (if b then 1 else 0) ∧
        jget (buildPortConfig port profile b) "linkSpeed" =
          jnn (jget profile "linkSpeed") (.num 0) ∧
        jget (buildPortConfig port profile b) "duplex" =
          jnn (jget profile "duplex") (.num 0) ∧
        jget (buildPortConfig port profile b) "dot1x" =
          jnn (jget profile "dot1x") (.num 2) ∧
        jget (buildPortConfig port profile b) "operation" =
          jor (jget profile "operation") (.str "switching")) ∧
    updateSwitchPortPoePayload scenarioSwitchData scenarioProfileP1 8 true =
      .ok (.obj [
        ("name", .str "Port 8"),
        ("profileId", .str "p1"),
        ("profileOverrideEnable", .bool true),
        ("dhcpL2RelaySettings", .obj [("enable", .bool false)]),
        ("operation", .str "switching"),
        ("linkSpeed", .num 0),
        ("duplex", .num 0),
        ("topoNotifyEnable", .bool false),
        ("poe", .num 1),
        ("dot1x", .num 2),
        ("bandWidthCtrlType", .num 0),
        ("loopbackDetectEnable", .bool false),
        ("spanningTreeEnable", .bool false),
        ("loopbackDetectVlanBasedEnable", .bool false),
        ("portIsolationEnable", .bool false),
        ("flowControlEnable", .bool false),
        ("eeeEnable", .bool false),
        ("lldpMedEnable", .bool true)]) := by
  constructor
  · intro port profile b
    exact ⟨rfl, rfl, rfl, rfl, rfl, rfl⟩
  · rfl

/-- C6: arming a confirmation for a key cancels and replaces any prior
pending timer for that exact key.  From a registry state satisfying the
reachable-state invariants (at most one pending entry per key, all recorded
timer identities below the fresh counter), arming twice for the same key
keeps at most one pending entry per key, cancels the first timer, leaves the
second timer pending and uncancelled, and touches no other key. -/
theorem scheduleConfirmation_single_pending (ts : TimerState) (k : String)
    (hcount : ∀ q, tKeyCount ts.pending q ≤ 1)
    (hpend : ∀ p ∈ ts.pending, p.2 < ts.nextId)
    (hcanc : ∀ i ∈ ts.cancelled, i < ts.nextId) :
    (∀ q, tKeyCount (scheduleConfirmation (scheduleConfirmation ts k) k).pending q ≤ 1) ∧
    ts.nextId ∈ (scheduleConfirmation (scheduleConfirmation ts k) k).cancelled ∧
    tGet (scheduleConfirmation (scheduleConfirmation ts k) k).pending k =
      some (ts.nextId + 1) ∧
    ts.nextId + 1 ∉ (scheduleConfirmation (scheduleConfirmation ts k) k).cancelled ∧
    (∀ q, q ≠ k →
        tGet (scheduleConfirmation (scheduleConfirmation ts k) k).pending q =
          tGet ts.pending q) := by
  have hget1 : tGet (scheduleConfirmation ts k).pending k = some ts.nextId := by
    unfold scheduleConfirmation
    exact tGet_tSet_self _ _ _
  have hpend2 : (scheduleConfirmation (scheduleConfirmation ts k) k).pending =
      tSet (tSet ts.pending k ts.nextId) k (ts.nextId + 1) := by
    unfold scheduleConfirmation
    rfl
  have hcanc1 : (scheduleConfirmation ts k).cancelled =
      match tGet ts.pending k with
      | some id => id :: ts.cancelled
      | none => ts.cancelled := rfl
  have hcanc2 : (scheduleConfirmation (scheduleConfirmation ts k) k).cancelled =
      ts.nextId :: (scheduleConfirmation ts k).cancelled := by
    have hstep : (scheduleConfirmation (scheduleConfirmation ts k) k).cancelled =
        match tGet (scheduleConfirmation ts k).pending k with
        | some id => id :: (scheduleConfirmation ts k).cancelled
        | none => (scheduleConfirmation ts k).cancelled := rfl
    rw [hstep, hget1]
  refine ⟨?_, ?_, ?_, ?_, ?_⟩
  · intro q
    rw [hpend2]
    by_cases hq : q = k
    · subst hq
      rw [tKeyCount_tSet_self, tKeyCount_tSet_self]
      have := hcount q
      omega
    · rw [tKeyCount_tSet_ne _ _ (fun he => hq he.symm),
          tKeyCount_tSet_ne _ _ (fun he => hq he.symm)]
      exact hcount q
  · rw [hcanc2]
    exact List.mem_cons_self _ _
  · rw [hpend2]
    exact tGet_tSet_self _ _ _
  · rw [hcanc2]
    intro hmem
    rcases List.mem_cons.mp hmem with heq | hmem2
    · omega
    · have hlt : ts.nextId + 1 < ts.nextId := by
        rw [hcanc1] at hmem2
        rcases hget0 : tGet ts.pending k with _ | id
        · rw [hget0] at hmem2
          exact hcanc _ hmem2
        · rw [hget0] at hmem2
          rcases List.mem_cons.mp hmem2 with heq2 | hmem3
          · have := hpend _ (tGet_mem hget0)
            omega
          · exact hcanc _ hmem3
      omega
  · intro q hq
    rw [hpend2, tGet_tSet_ne _ _ (fun he => hq he.symm),
        tGet_tSet_ne _ _ (fun he => hq he.symm)]

/-- C6 witness from the empty registry. -/
theorem scheduleConfirmation_single_pending_witness :
    (∀ q, tKeyCount (([] : List (String × Nat))) q ≤ 1) ∧
    (tKeyCount (scheduleConfirmation (scheduleConfirmation ⟨[], [], 0⟩ "AA-BB:1") "AA-BB:1").pending
        "AA-BB:1" ≤ 1 ∧
     0 ∈ (scheduleConfirmation (scheduleConfirmation ⟨[], [], 0⟩ "AA-BB:1") "AA-BB:1").cancelled ∧
     tGet (scheduleConfirmation (scheduleConfirmation ⟨[], [], 0⟩ "AA-BB:1") "AA-BB:1").pending
        "AA-BB:1" = some 1 ∧
     1 ∉ (scheduleConfirmation (scheduleConfirmation ⟨[], [], 0⟩ "AA-BB:1") "AA-BB:1").cancelled) := by
  have h := scheduleConfirmation_single_pending ⟨[], [], 0⟩ "AA-BB:1"
    (fun q => by simp [tKeyCount]) (fun p hp => by simp at hp) (fun i hi => by simp at hi)
  exact ⟨fun q => by simp [tKeyCount], h.1 "AA-BB:1", h.2.1, h.2.2.1, h.2.2.2.1⟩

/-- C7: destroy cancels the poll intervals, the reconnect timeout and every
pending confirmation timer, but configUpdated leaves the pending
confirmation timers armed while cancelling the rest — the code contradicts
the claim that every session teardown cancels all confirmation timers. -/
theorem configUpdated_keeps_confirmation_timers :
    destroyTeardown ⟨some 10, some 11, some 12, [("AA-BB:1", 7)]⟩ =
      ⟨none, none, none, []⟩ ∧
    configUpdatedTeardown ⟨some 10, some 11, some 12, [("AA-BB:1", 7)]⟩ =
      ⟨none, none, none, [("AA-BB:1", 7)]⟩ ∧
    (configUpdatedTeardown ⟨some 10, some 11, some 12, [("AA-BB:1", 7)]⟩).confirmationTimeouts ≠
      [] := by
  refine ⟨rfl, rfl, ?_⟩
  decide

/-- C8, counterexample: the claimed invariant is NOT preserved by the
device-list refresh.  Starting from consistent caches holding the switch
AA-BB, a refresh returning no devices empties the directory yet leaves the
stale switch-details entry in place, violating the invariant. -/
theorem refreshDeviceList_leaves_stale_details :
    detailsKeysInDirectory staleCaches ∧
    mapHasKey (refreshDeviceList [] staleCaches).switchDetailsCache (.str "AA-BB") = true ∧
    (refreshDeviceList [] staleCaches).deviceCache = [] ∧
    ¬ detailsKeysInDirectory (refreshDeviceList [] staleCaches) := by
  refine ⟨?_, rfl, rfl, ?_⟩
  · intro k h
    simpa [staleCaches, mapHasKey] using h
  · intro hcontra
    have h := hcontra (.str "AA-BB") rfl
    simp [refreshDeviceList, mapHasKey] at h

/-- C8, amended: the switch-details refresh writes entries only under the
mac keys of switch devices currently in the directory (a key present after
the refresh was present before or belongs to a directory switch), and the
device-list refresh never removes switch-details entries, so a device
removed from the directory keeps its stale port entry. -/
theorem refreshSwitchDetails_keys_bounded (fetched : List JVal)
    (fetch : JVal → Option JVal) (s : Caches) (k : JVal)
    (h : mapHasKey (refreshSwitchDetails fetch s).switchDetailsCache k = true) :
    (refreshDeviceList fetched s).switchDetailsCache = s.switchDetailsCache ∧
    (mapHasKey s.switchDetailsCache k = true ∨
      (switchMacs s).any (fun m => keySame m k) = true) := by
  refine ⟨rfl, ?_⟩
  have hfold := foldDetails_keys fetch
    ((cacheValues s.deviceCache).filter isSwitchDevice) s.switchDetailsCache k h
  simpa [switchMacs] using hfold

/-- C8 witness: a concrete refresh over the one-switch caches. -/
theorem refreshSwitchDetails_keys_bounded_witness :
    mapHasKey (refreshSwitchDetails (fun _ => some (.obj [])) staleCaches).switchDetailsCache
      (.str "AA-BB") = true ∧
    ((refreshDeviceList [] staleCaches).switchDetailsCache = staleCaches.switchDetailsCache ∧
     (mapHasKey staleCaches.switchDetailsCache (.str "AA-BB") = true ∨
       (switchMacs staleCaches).any (fun m => keySame m (.str "AA-BB")) = true)) :=
  ⟨rfl, refreshSwitchDetails_keys_bounded [] (fun _ => some (.obj [])) staleCaches
    (.str "AA-BB") rfl⟩

/-- C9, counterexample: isPoeEnabled does NOT return false on every cache
state whose entry contains no port with the queried number.  A cached entry
whose ports field is the truthy non-array 5 has no port numbered 1, yet the
ports?.find call throws a TypeError ((5).find is not a function) instead of
answering false. -/
theorem isPoeEnabled_throws_on_nonarray_ports :
    jget (mapGet cachePortsNum (.str "AA-BB")) "ports" = .num 5 ∧
    isPoeEnabledE cachePortsNum "AA-BB" 1 = .error () :=
  ⟨rfl, rfl⟩

/-- C9, amended: isPoeEnabled is a pure cache read with no network I/O
(the model takes no request script).  It returns false when the cache has no
truthy entry for the device, and when the entry's ports value is nullish,
absent, or an array containing no port with the queried number; but when a
truthy cache entry carries a truthy non-array ports value, the ports?.find
call throws a TypeError instead of returning false. -/
theorem isPoeEnabledE_absent_false (cache : JCache) (mac : String) (n : Int) :
    (mapGet cache (.str mac) = .undefined → isPoeEnabledE cache mac n = .ok false) ∧
    (findPortE (mapGet cache (.str mac)) n = .ok none →
      isPoeEnabledE cache mac n = .ok false) ∧
    (findPortE (mapGet cache (.str mac)) n = .error () →
      isPoeEnabledE cache mac n = .error ()) := by
  refine ⟨?_, ?_, ?_⟩
  · intro h
    simp [isPoeEnabledE, h, truthy]
  · intro h
    simp [isPoeEnabledE, h]
  · intro h
    have hobj : ∃ fs, mapGet cache (.str mac) = .obj fs := by
      refine jget_ne_undef_obj (k := "ports") ?_
      intro hu
      unfold findPortE at h
      rw [hu] at h
      simp at h
    obtain ⟨fs, hdet⟩ := hobj
    have h2 : findPortE (.obj fs) n = .error () := hdet ▸ h
    simp [isPoeEnabledE, hdet, truthy, h2]

/-- C9 witness: an empty cache, a cached device without the queried port,
and the poisoned cache whose entry makes the lookup throw. -/
theorem isPoeEnabledE_absent_false_witness :
    mapGet ([] : JCache) (.str "AA-BB") = .undefined ∧
    isPoeEnabledE ([] : JCache) "AA-BB" 3 = .ok false ∧
    findPortE (mapGet (cacheOf portNoStatus) (.str "AA-BB")) 9 = .ok none ∧
    isPoeEnabledE (cacheOf portNoStatus) "AA-BB" 9 = .ok false ∧
    findPortE (mapGet cachePortsNum (.str "AA-BB")) 1 = .error () ∧
    isPoeEnabledE cachePortsNum "AA-BB" 1 = .error () :=
  ⟨rfl, (isPoeEnabledE_absent_false [] "AA-BB" 3).1 rfl, rfl,
   (isPoeEnabledE_absent_false (cacheOf portNoStatus) "AA-BB" 9).2.1 rfl, rfl,
   (isPoeEnabledE_absent_false cachePortsNum "AA-BB" 1).2.2 rfl⟩

/-- C10: when the cache holds the device and the queried port, isPoeEnabled
answers true exactly when the port's portStatus.poe field is the boolean
true; getPortPoeStatus applies the same strict comparison; the integer 1,
the string true, and a missing portStatus all read as false. -/
theorem isPoeEnabled_strict_boolean (cache : JCache) (mac : String) (n : Int)
    (port : JVal) (hfind : findPort (mapGet cache (.str mac)) n = some port) :
    (isPoeEnabled cache mac n = true ↔
      jget (jget port "portStatus") "poe" = .bool true) ∧
    getPortPoeStatus (mapGet cache (.str mac)) n = .ok (isPoeEnabled cache mac n) ∧
    isPoeEnabled (cacheOf portPoeNum) "AA-BB" 1 = false ∧
    isPoeEnabled (cacheOf portPoeStr) "AA-BB" 1 = false ∧
    isPoeEnabled (cacheOf portNoStatus) "AA-BB" 1 = false := by
  obtain ⟨fs, hdet⟩ := findPort_obj hfind
  have hfind2 : findPort (.obj fs) n = some port := hdet ▸ hfind
  have hpoe : isPoeEnabled cache mac n = poeFlag port := by
    simp [isPoeEnabled, hdet, hfind2, truthy]
  have hstatus : getPortPoeStatus (mapGet cache (.str mac)) n = .ok (poeFlag port) := by
    unfold getPortPoeStatus
    rw [hfind]
  refine ⟨?_, ?_, rfl, rfl, rfl⟩
  · rw [hpoe]
    exact poeFlag_eq_true_iff port
  · rw [hstatus, hpoe]

/-- C10 witness: the device AA-BB with port 1 present in the cache. -/
theorem isPoeEnabled_strict_boolean_witness :
    findPort (mapGet (cacheOf portWithStatus) (.str "AA-BB")) 1 = some portWithStatus ∧
    ((isPoeEnabled (cacheOf portWithStatus) "AA-BB" 1 = true ↔
        jget (jget portWithStatus "portStatus") "poe" = .bool true) ∧
     getPortPoeStatus (mapGet (cacheOf portWithStatus) (.str "AA-BB")) 1 =
       .ok (isPoeEnabled (cacheOf portWithStatus) "AA-BB" 1) ∧
     isPoeEnabled (cacheOf portPoeNum) "AA-BB" 1 = false ∧
     isPoeEnabled (cacheOf portPoeStr) "AA-BB" 1 = false ∧
     isPoeEnabled (cacheOf portNoStatus) "AA-BB" 1 = false) :=
  ⟨rfl, isPoeEnabled_strict_boolean (cacheOf portWithStatus) "AA-BB" 1 portWithStatus rfl⟩
